import Mathlib

/-!
Shallow embedding of `utils/download.go` from AgNO3/aptly: the concurrent
download engine (task queue, worker loop, shutdown protocol), the per-task
fetch-verify-commit procedure `handleTask`, and the convenience layers
`DownloadTemp` and `DownloadTryCompression`.

External effects (HTTP transport, filesystem-call failures, the opaque
checksum sink) are supplied by an explicit environment; the filesystem is an
explicit state (path-to-content association list plus a set of directories).
Each Lean definition mirrors one Go declaration of the source file.
-/

/-- ChecksumInfo: expected/actual verification data. Size is the int64 byte
count (sentinel -1 disables verification); each hash field is a hex string,
empty meaning "skip this check". -/
structure ChecksumInfo where
  Size : Int
  MD5 : String
  SHA1 : String
  SHA256 : String
deriving DecidableEq, Repr

/-- downloadTask: single item in the queue (download.go lines 39-44).
The Go result channel is modelled by an abstract channel identifier. -/
structure downloadTask where
  url : String
  destination : String
  result : Nat
  expected : ChecksumInfo
deriving DecidableEq, Repr

/-- Errors produced by handleTask. Each constructor corresponds to one error
production site in download.go, keeping the data that the Go fmt.Errorf call
interpolates (opaque errors from the standard library are carried as their
message string). -/
inductive DownloadError where
  | transport (msg : String)
  | httpCode (code : Int) (url : String)
  | mkdirFailed (msg : String)
  | createFailed (msg : String)
  | copyFailed (msg : String)
  | sizeMismatch (url : String) (actual expected : Int)
  | md5Mismatch (url : String) (actual expected : String)
  | sha1Mismatch (url : String) (actual expected : String)
  | sha256Mismatch (url : String) (actual expected : String)
  | renameFailed (msg : String)
deriving DecidableEq, Repr

/-- Whether an error is one of the four verification (size/hash mismatch)
errors of handleTask. -/
def DownloadError.isVerification : DownloadError → Bool
  | .sizeMismatch _ _ _ => true
  | .md5Mismatch _ _ _ => true
  | .sha1Mismatch _ _ _ => true
  | .sha256Mismatch _ _ _ => true
  | _ => false

/-- Result of http.Get: a transport error, or a response with status code
and body bytes (bytes modelled as a String). -/
inductive HTTPResult where
  | transportError (msg : String)
  | response (statusCode : Int) (body : String)
deriving DecidableEq, Repr

/-- Outcome of io.Copy: success (the whole body was streamed), or an error
after some written bytes reached the writer. -/
inductive CopyResult where
  | copyOk
  | copyErr (msg : String) (written : String)
deriving DecidableEq, Repr

/-- Environment of one handleTask run: the HTTP response and the outcomes of
the fallible external calls. `sum` is the value returned by the opaque
checksum sink's finalize (checksummer.Sum()). -/
structure TaskEnv where
  http : HTTPResult
  mkdirErr : Option String
  createErr : Option String
  copy : CopyResult
  sum : ChecksumInfo
  renameErr : Option String
deriving DecidableEq, Repr

/-- Filesystem state: files as a path-to-content association list, plus the
set of directories that exist. -/
structure FSState where
  files : List (String × String)
  dirs : List String
deriving DecidableEq, Repr

/-- Look up the content of a file by path. -/
def lookupFile : List (String × String) → String → Option String
  | [], _ => none
  | (q, c) :: rest, p => if q = p then some c else lookupFile rest p

/-- Remove the binding of a path. -/
def removeFile : List (String × String) → String → List (String × String)
  | [], _ => []
  | (q, c) :: rest, p => if q = p then removeFile rest p else (q, c) :: removeFile rest p

/-- Set the content of a path, replacing any previous binding. -/
def setFile (l : List (String × String)) (p c : String) : List (String × String) :=
  (p, c) :: removeFile l p

/-- Write a file (os.Create truncates, io.Copy fills). -/
def fsWrite (fs : FSState) (p c : String) : FSState :=
  { fs with files := setFile fs.files p c }

/-- Delete a file (os.Remove). -/
def fsRemove (fs : FSState) (p : String) : FSState :=
  { fs with files := removeFile fs.files p }

/-- Rename a file (os.Rename): the content bound at src moves to dst. -/
def fsRename (fs : FSState) (src dst : String) : FSState :=
  match lookupFile fs.files src with
  | none => fs
  | some c => { fs with files := setFile (removeFile fs.files src) dst c }

/-- Model of filepath.Dir: everything before the last path separator. -/
def dirOf (p : String) : String :=
  let parts := (p.splitOn "/").dropLast
  if parts = [] then "." else String.intercalate "/" parts

/-- Model of os.MkdirAll on the given directory: the directory (standing for
it and its ancestors) is added to the set of existing directories. -/
def fsMkdirAll (fs : FSState) (d : String) : FSState :=
  if d ∈ fs.dirs then fs else { fs with dirs := d :: fs.dirs }

/-- Observable outcome of one handleTask run: the final filesystem, the
values delivered on the task's result channel (in order), and the byte
chunks fed to the checksum sink. -/
structure TaskRun where
  fs : FSState
  sent : List (Option DownloadError)
  sinkWrites : List String
deriving DecidableEq, Repr

/-- Verification chain of handleTask (download.go lines 150-160): compare
size, then each non-empty hash field, in order, first mismatch wins. -/
def checksumVerdict (url : String) (expected actual : ChecksumInfo) : Option DownloadError :=
  if actual.Size ≠ expected.Size then
    some (.sizeMismatch url actual.Size expected.Size)
  else if expected.MD5 ≠ "" ∧ actual.MD5 ≠ expected.MD5 then
    some (.md5Mismatch url actual.MD5 expected.MD5)
  else if expected.SHA1 ≠ "" ∧ actual.SHA1 ≠ expected.SHA1 then
    some (.sha1Mismatch url actual.SHA1 expected.SHA1)
  else if expected.SHA256 ≠ "" ∧ actual.SHA256 ≠ expected.SHA256 then
    some (.sha256Mismatch url actual.SHA256 expected.SHA256)
  else none

/-- Fall-through tail of handleTask (download.go lines 169-176): rename the
temp file onto the destination; on rename failure remove the temp file and
deliver the error, on success deliver nil. -/
def renameStep (task : downloadTask) (env : TaskEnv) (fs : FSState) (sink : List String) : TaskRun :=
  match env.renameErr with
  | some msg =>
    { fs := fsRemove fs (task.destination ++ ".down"),
      sent := [some (.renameFailed msg)], sinkWrites := sink }
  | none =>
    { fs := fsRename fs (task.destination ++ ".down") task.destination,
      sent := [none], sinkWrites := sink }

/-- handleTask (download.go lines 102-177): GET, status check, MkdirAll,
create temp file at destination + ".down", stream body (fanning bytes into
the checksum sink iff expected.Size differs from -1), verify, rename. -/
def handleTask (task : downloadTask) (env : TaskEnv) (fs0 : FSState) : TaskRun :=
  match env.http with
  | .transportError msg => { fs := fs0, sent := [some (.transport msg)], sinkWrites := [] }
  | .response statusCode body =>
    if statusCode < 200 ∨ statusCode > 299 then
      { fs := fs0, sent := [some (.httpCode statusCode task.url)], sinkWrites := [] }
    else
      match env.mkdirErr with
      | some msg => { fs := fs0, sent := [some (.mkdirFailed msg)], sinkWrites := [] }
      | none =>
        let fs1 := fsMkdirAll fs0 (dirOf task.destination)
        let temppath := task.destination ++ ".down"
        match env.createErr with
        | some msg => { fs := fs1, sent := [some (.createFailed msg)], sinkWrites := [] }
        | none =>
          let fs2 := fsWrite fs1 temppath ""
          match env.copy with
          | .copyErr msg written =>
            { fs := fsRemove (fsWrite fs2 temppath written) temppath,
              sent := [some (.copyFailed msg)],
              sinkWrites := if task.expected.Size ≠ -1 then [written] else [] }
          | .copyOk =>
            let fs3 := fsWrite fs2 temppath body
            let sink := if task.expected.Size ≠ -1 then [body] else []
            if task.expected.Size ≠ -1 then
              match checksumVerdict task.url task.expected env.sum with
              | some e => { fs := fsRemove fs3 temppath, sent := [some e], sinkWrites := sink }
              | none => renameStep task env fs3 sink
            else
              renameStep task env fs3 sink

/-- DownloadWithChecksum (download.go lines 97-99): build the task that is
put on the queue. -/
def DownloadWithChecksum (url destination : String) (result : Nat) (expected : ChecksumInfo) : downloadTask :=
  { url := url, destination := destination, result := result, expected := expected }

/-- Download (download.go lines 92-94): delegates to DownloadWithChecksum
with ChecksumInfo{Size: -1} (hash fields at their zero value ""). -/
def Download (url destination : String) (result : Nat) : downloadTask :=
  DownloadWithChecksum url destination result { Size := -1, MD5 := "", SHA1 := "", SHA256 := "" }

/-- Enqueue a task on the bounded queue (queue <- task). -/
def enqueue (queue : List downloadTask) (t : downloadTask) : List downloadTask :=
  queue ++ [t]

/-- Error returned by DownloadTemp: the TempDir failure, the download
outcome received on the result channel, or the os.Open failure. -/
inductive TempError where
  | tempDirFailed (msg : String)
  | download (e : DownloadError)
  | openFailed (msg : String)
deriving DecidableEq, Repr

/-- Environment of one DownloadTemp call: outcome of ioutil.TempDir (name of
the fresh directory, or an error), the single value received on the result
channel, the content of the fetched file, and the outcome of os.Open. -/
structure TempEnv where
  tempDirErr : Option String
  tempdir : String
  fetchErr : Option DownloadError
  content : String
  openErr : Option String
deriving DecidableEq, Repr

/-- Observable outcome of one DownloadTemp call: the returned value (an open
readable handle modelled by the file content), the (url, destination) pairs
of the tasks submitted to the engine, and whether the temporary directory
was removed before returning. -/
structure TempRun where
  result : Except TempError String
  submitted : List (String × String)
  tempdirRemoved : Bool
deriving Repr

/-- DownloadTemp (download.go lines 197-220): create a fresh temporary
directory, download url to the fixed name "buffer" inside it, block on the
result channel, open the file on success; the deferred os.RemoveAll removes
the directory on every path after its creation. -/
def DownloadTemp (env : TempEnv) (url : String) : TempRun :=
  match env.tempDirErr with
  | some msg => { result := .error (.tempDirFailed msg), submitted := [], tempdirRemoved := false }
  | none =>
    let tempfile := env.tempdir ++ "/buffer"
    match env.fetchErr with
    | some e =>
      { result := .error (.download e), submitted := [(url, tempfile)], tempdirRemoved := true }
    | none =>
      match env.openErr with
      | some msg =>
        { result := .error (.openFailed msg), submitted := [(url, tempfile)],
          tempdirRemoved := true }
      | none =>
        { result := .ok env.content, submitted := [(url, tempfile)], tempdirRemoved := true }

/-- Streams handed out by DownloadTryCompression: the downloaded content
wrapped in the decoder that the successful candidate prescribes. -/
inductive Reader where
  | bzip2Reader (compressed : String)
  | gzipReader (compressed : String)
  | rawReader (s : String)
deriving DecidableEq, Repr

/-- One entry of the compressionMethods table: a URL suffix and the decoder
construction applied to the downloaded content (the field name keeps the
source's spelling). -/
structure CompressionMethod where
  extenstion : String
  transformation : String → Except String Reader

/-- Error accumulated by the DownloadTryCompression loop: a DownloadTemp
failure or a decoder-construction failure. -/
inductive ProbeError where
  | download (e : TempError)
  | decode (msg : String)
deriving DecidableEq, Repr

/-- compressionMethods (download.go lines 223-239): ordered candidate list
.bz2 (bzip2.NewReader, never fails), .gz (gzip.NewReader, fails on bad
header: the failure oracle gzipErr models it), "" (pass-through). -/
def compressionMethods (gzipErr : String → Option String) : List CompressionMethod :=
  [ { extenstion := ".bz2", transformation := fun r => .ok (.bzip2Reader r) },
    { extenstion := ".gz",
      transformation := fun r =>
        match gzipErr r with
        | some msg => .error msg
        | none => .ok (.gzipReader r) },
    { extenstion := "", transformation := fun r => .ok (.rawReader r) } ]

/-- Loop body of DownloadTryCompression (download.go lines 246-262): try
each candidate in order, remembering the last error (the Go `var err error`
accumulator, nil at the start); first full success returns immediately. -/
def tryMethods (fetch : String → Except TempError String) (url : String) :
    List CompressionMethod → Option ProbeError → Except (Option ProbeError) (Reader × String)
  | [], lastErr => .error lastErr
  | m :: rest, lastErr =>
    match fetch (url ++ m.extenstion) with
    | .error e => tryMethods fetch url rest (some (.download e))
    | .ok content =>
      match m.transformation content with
      | .error msg => tryMethods fetch url rest (some (.decode msg))
      | .ok reader => .ok (reader, content)

/-- Per-url DownloadTemp result, as the fetch step that
DownloadTryCompression performs on each candidate url. -/
def tempFetch (tenv : String → TempEnv) (u : String) : Except TempError String :=
  (DownloadTemp (tenv u) u).result

/-- DownloadTryCompression (download.go lines 243-263): probe url+".bz2",
url+".gz", url in that order through DownloadTemp, wrapping the first
success in its decoder. -/
def DownloadTryCompression (tenv : String → TempEnv) (gzipErr : String → Option String)
    (url : String) : Except (Option ProbeError) (Reader × String) :=
  tryMethods (tempFetch tenv) url (compressionMethods gzipErr) none

/-- One arrival at a worker's select point (download.go lines 182-190): a
stop token, a pause token (the matching unpause is folded in), or a task
pulled from the queue. -/
inductive WorkerEvent where
  | stopTok
  | pauseTok
  | taskEv (t : downloadTask)
deriving DecidableEq, Repr

/-- Externally visible worker actions: a task ran to completion (its result
was delivered by handleTask), or the worker acknowledged stop on the
stopped channel. -/
inductive WorkerAction where
  | completed (t : downloadTask)
  | acked
deriving DecidableEq, Repr

/-- process (download.go lines 180-192) as a trace function: the worker
consumes its select arrivals in order; a task is handled to completion, a
pause blocks until unpause, and the first stop token is answered with one
acknowledgment after which the worker terminates. -/
def process : List WorkerEvent → List WorkerAction
  | [] => []
  | .stopTok :: _ => [.acked]
  | .pauseTok :: rest => process rest
  | .taskEv t :: rest => .completed t :: process rest

/-- The arrivals a worker actually consumes: everything up to and including
its first stop token; arrivals after it are left unconsumed. -/
def consumedEvents : List WorkerEvent → List WorkerEvent
  | [] => []
  | .stopTok :: _ => [.stopTok]
  | e :: rest => e :: consumedEvents rest

/-- The arrivals strictly before the first stop token. -/
def beforeStop : List WorkerEvent → List WorkerEvent
  | [] => []
  | .stopTok :: _ => []
  | e :: rest => e :: beforeStop rest

/-- The tasks among a list of arrivals, in order. -/
def tasksOf : List WorkerEvent → List downloadTask
  | [] => []
  | .taskEv t :: rest => t :: tasksOf rest
  | _ :: rest => tasksOf rest

/-- Number of stop tokens in a list of arrivals. -/
def countStops : List WorkerEvent → Nat
  | [] => 0
  | .stopTok :: rest => countStops rest + 1
  | _ :: rest => countStops rest

/-- Number of stop acknowledgments in a list of worker actions. -/
def countAcks : List WorkerAction → Nat
  | [] => 0
  | .acked :: rest => countAcks rest + 1
  | _ :: rest => countAcks rest

/-- Stop tokens sent by Shutdown (download.go lines 68-70): one per worker. -/
def shutdownStopsSent (threads : Nat) : Nat := threads

/-- Acknowledgments Shutdown waits for before returning (download.go lines
72-74): one per worker. -/
def shutdownAcksAwaited (threads : Nat) : Nat := threads

/-- Any error the verification chain reports is one of the four mismatch
errors. -/
theorem checksumVerdict_isVerification (url : String) (expected actual : ChecksumInfo)
    (e : DownloadError) (h : checksumVerdict url expected actual = some e) :
    e.isVerification = true := by
  unfold checksumVerdict at h
  split at h
  · cases h; rfl
  · split at h
    · cases h; rfl
    · split at h
      · cases h; rfl
      · split at h
        · cases h; rfl
        · cases h

/-- Claim C3: every execution of handleTask delivers exactly one value on the
task's result channel: one error on each failure path and one nil on the
success path, never zero and never more than one. -/
theorem handleTask_delivers_exactly_one (task : downloadTask) (env : TaskEnv) (fs0 : FSState) :
    ((handleTask task env fs0).sent.length = 1) ∧
    ((handleTask task env fs0).sent = [none] ∨ ∃ e, (handleTask task env fs0).sent = [some e]) := by
  obtain ⟨http, mkE, crE, cp, sm, rn⟩ := env
  cases http with
  | transportError msg => exact ⟨rfl, Or.inr ⟨_, rfl⟩⟩
  | response code body =>
    by_cases hc : code < 200 ∨ code > 299 <;>
      cases mkE <;> cases crE <;> cases cp <;> cases rn <;>
      by_cases hs : task.expected.Size = -1 <;>
      simp [handleTask, renameStep, hc, hs] <;>
      rcases hv : checksumVerdict task.url task.expected sm with _ | e <;> simp [hv]

/-- Claim C6: Download(url, destination, result) builds exactly the task that
DownloadWithChecksum(url, destination, result, ChecksumInfo{Size: -1}) builds,
enqueues the same task, and every run of that task has the same outcome. -/
theorem Download_eq_DownloadWithChecksum_skip (url destination : String) (result : Nat) :
    Download url destination result =
      DownloadWithChecksum url destination result { Size := -1, MD5 := "", SHA1 := "", SHA256 := "" } ∧
    (∀ queue, enqueue queue (Download url destination result) =
      enqueue queue (DownloadWithChecksum url destination result
        { Size := -1, MD5 := "", SHA1 := "", SHA256 := "" })) ∧
    (∀ env fs0, handleTask (Download url destination result) env fs0 =
      handleTask (DownloadWithChecksum url destination result
        { Size := -1, MD5 := "", SHA1 := "", SHA256 := "" }) env fs0) := by
  exact ⟨rfl, fun _ => rfl, fun _ _ => rfl⟩

/-- Claim C5: for a task whose GET completes without transport error, an
HTTP-status error (carrying the status code and the URL) is delivered if and
only if the status code lies outside 200-299; and in that case the
filesystem is untouched (in particular no temp file is created) and no bytes
reach the sink. -/
theorem handleTask_http_status_error (task : downloadTask) (env : TaskEnv) (fs0 : FSState)
    (code : Int) (body : String) (hhttp : env.http = .response code body) :
    ((handleTask task env fs0).sent = [some (.httpCode code task.url)] ↔
      (code < 200 ∨ code > 299)) ∧
    ((code < 200 ∨ code > 299) →
      (handleTask task env fs0).fs = fs0 ∧ (handleTask task env fs0).sinkWrites = []) := by
  obtain ⟨http, mkE, crE, cp, sm, rn⟩ := env
  cases hhttp
  by_cases hc : code < 200 ∨ code > 299
  · refine ⟨⟨fun _ => hc, fun _ => ?_⟩, fun _ => ⟨?_, ?_⟩⟩ <;> simp [handleTask, hc]
  · have hne : (handleTask task ⟨.response code body, mkE, crE, cp, sm, rn⟩ fs0).sent ≠
        [some (.httpCode code task.url)] := by
      cases mkE <;> cases crE <;> cases cp <;> cases rn <;>
        by_cases hs : task.expected.Size = -1 <;>
        simp [handleTask, renameStep, hc, hs] <;>
        rcases hv : checksumVerdict task.url task.expected sm with _ | e <;>
        simp [hv] <;>
        · intro he
          have hver := checksumVerdict_isVerification _ _ _ _ hv
          rw [he] at hver
          simp [DownloadError.isVerification] at hver
    exact ⟨⟨fun h => absurd h hne, fun h => absurd h hc⟩, fun h => absurd h hc⟩

theorem handleTask_http_status_error_witness :
    ((handleTask ⟨"u", "d", 0, ⟨-1, "", "", ""⟩⟩
        ⟨.response 404 "", none, none, .copyOk, ⟨0, "", "", ""⟩, none⟩
        ⟨[], []⟩).sent = [some (.httpCode 404 "u")] ↔
      ((404 : Int) < 200 ∨ (404 : Int) > 299)) ∧
    (((404 : Int) < 200 ∨ (404 : Int) > 299) →
      (handleTask ⟨"u", "d", 0, ⟨-1, "", "", ""⟩⟩
        ⟨.response 404 "", none, none, .copyOk, ⟨0, "", "", ""⟩, none⟩
        ⟨[], []⟩).fs = ⟨[], []⟩ ∧
      (handleTask ⟨"u", "d", 0, ⟨-1, "", "", ""⟩⟩
        ⟨.response 404 "", none, none, .copyOk, ⟨0, "", "", ""⟩, none⟩
        ⟨[], []⟩).sinkWrites = []) :=
  handleTask_http_status_error _ _ _ 404 "" rfl

/-- Claim C1: with verification requested (expected.Size differs from -1) and
streaming complete, the delivered outcome is the verdict of the ordered
chain size, md5, sha1, sha256; a size mismatch reports "size" whatever the
hash values; a correct size with a non-empty wrong md5 reports "md5"; sha1
and sha256 follow in order; and an empty expected hash field is never
compared (the verdict ignores the corresponding actual value). -/
theorem handleTask_verification_order
    (task : downloadTask) (env : TaskEnv) (fs0 : FSState)
    (code : Int) (body : String)
    (hhttp : env.http = .response code body) (hc : ¬(code < 200 ∨ code > 299))
    (hmk : env.mkdirErr = none) (hcr : env.createErr = none) (hcp : env.copy = .copyOk)
    (hver : task.expected.Size ≠ -1) :
    (∀ e, checksumVerdict task.url task.expected env.sum = some e →
      (handleTask task env fs0).sent = [some e]) ∧
    (env.sum.Size ≠ task.expected.Size →
      (handleTask task env fs0).sent =
        [some (.sizeMismatch task.url env.sum.Size task.expected.Size)]) ∧
    (env.sum.Size = task.expected.Size → task.expected.MD5 ≠ "" →
      env.sum.MD5 ≠ task.expected.MD5 →
      (handleTask task env fs0).sent =
        [some (.md5Mismatch task.url env.sum.MD5 task.expected.MD5)]) ∧
    (env.sum.Size = task.expected.Size →
      (task.expected.MD5 = "" ∨ env.sum.MD5 = task.expected.MD5) →
      task.expected.SHA1 ≠ "" → env.sum.SHA1 ≠ task.expected.SHA1 →
      (handleTask task env fs0).sent =
        [some (.sha1Mismatch task.url env.sum.SHA1 task.expected.SHA1)]) ∧
    (env.sum.Size = task.expected.Size →
      (task.expected.MD5 = "" ∨ env.sum.MD5 = task.expected.MD5) →
      (task.expected.SHA1 = "" ∨ env.sum.SHA1 = task.expected.SHA1) →
      task.expected.SHA256 ≠ "" → env.sum.SHA256 ≠ task.expected.SHA256 →
      (handleTask task env fs0).sent =
        [some (.sha256Mismatch task.url env.sum.SHA256 task.expected.SHA256)]) ∧
    (∀ url expected actual x, expected.MD5 = "" →
      checksumVerdict url expected { actual with MD5 := x } =
        checksumVerdict url expected actual) ∧
    (∀ url expected actual x, expected.SHA1 = "" →
      checksumVerdict url expected { actual with SHA1 := x } =
        checksumVerdict url expected actual) ∧
    (∀ url expected actual x, expected.SHA256 = "" →
      checksumVerdict url expected { actual with SHA256 := x } =
        checksumVerdict url expected actual) := by
  have hmain : ∀ e, checksumVerdict task.url task.expected env.sum = some e →
      (handleTask task env fs0).sent = [some e] := by
    intro e hv
    simp [handleTask, hhttp, hmk, hcr, hcp, hc, hver, hv]
  refine ⟨hmain, ?_, ?_, ?_, ?_, ?_, ?_, ?_⟩
  · intro hsz
    exact hmain _ (by simp [checksumVerdict, hsz])
  · intro hsz hmd hne
    exact hmain _ (by simp [checksumVerdict, hsz, hmd, hne])
  · intro hsz hmd hsh hne
    refine hmain _ ?_
    rcases hmd with hmd | hmd <;> simp [checksumVerdict, hsz, hmd, hsh, hne]
  · intro hsz hmd hsh1 hsh hne
    refine hmain _ ?_
    rcases hmd with hmd | hmd <;> rcases hsh1 with hsh1 | hsh1 <;>
      simp [checksumVerdict, hsz, hmd, hsh1, hsh, hne]
  · intro url expected actual x hemp
    simp [checksumVerdict, hemp]
  · intro url expected actual x hemp
    simp [checksumVerdict, hemp]
  · intro url expected actual x hemp
    simp [checksumVerdict, hemp]

theorem handleTask_verification_order_witness :
    (handleTask ⟨"u", "d", 0, ⟨5, "aa", "", ""⟩⟩
        ⟨.response 200 "xxxxxx", none, none, .copyOk, ⟨6, "zz", "", ""⟩, none⟩
        ⟨[], []⟩).sent = [some (.sizeMismatch "u" 6 5)] :=
  (handleTask_verification_order ⟨"u", "d", 0, ⟨5, "aa", "", ""⟩⟩
      ⟨.response 200 "xxxxxx", none, none, .copyOk, ⟨6, "zz", "", ""⟩, none⟩
      ⟨[], []⟩ 200 "xxxxxx" rfl (by decide) rfl rfl rfl (by decide)).2.1 (by decide)

/-- Claim C4: when the expected ChecksumInfo has Size = -1, verification is
fully skipped: the checksum sink receives no bytes, the whole outcome is
independent of the sink's finalize value and of the expected hash fields
(even non-empty ones), and the delivered error (if any) is never a
size/hash verification error. -/
theorem handleTask_skip_verification (task : downloadTask) (env : TaskEnv) (fs0 : FSState)
    (hsize : task.expected.Size = -1) :
    ((handleTask task env fs0).sinkWrites = []) ∧
    (∀ sum2, handleTask task { env with sum := sum2 } fs0 = handleTask task env fs0) ∧
    (∀ m5 s1 s2, handleTask { task with expected := ⟨-1, m5, s1, s2⟩ } env fs0 =
      handleTask task env fs0) ∧
    (∀ e, (handleTask task env fs0).sent = [some e] → e.isVerification = false) := by
  obtain ⟨http, mkE, crE, cp, sm, rn⟩ := env
  refine ⟨?_, ?_, ?_, ?_⟩
  · cases http with
    | transportError msg => rfl
    | response code body =>
      by_cases hcode : code < 200 ∨ code > 299 <;>
        cases mkE <;> cases crE <;> cases cp <;> cases rn <;>
        simp [handleTask, renameStep, hcode, hsize]
  · intro sum2
    cases http with
    | transportError msg => rfl
    | response code body =>
      by_cases hcode : code < 200 ∨ code > 299 <;>
        cases mkE <;> cases crE <;> cases cp <;> cases rn <;>
        simp [handleTask, renameStep, hcode, hsize]
  · intro m5 s1 s2
    cases http with
    | transportError msg => rfl
    | response code body =>
      by_cases hcode : code < 200 ∨ code > 299 <;>
        cases mkE <;> cases crE <;> cases cp <;> cases rn <;>
        simp [handleTask, renameStep, hcode, hsize]
  · intro e he
    cases http with
    | transportError msg =>
      simp [handleTask] at he
      subst he; rfl
    | response code body =>
      by_cases hcode : code < 200 ∨ code > 299 <;>
        cases mkE <;> cases crE <;> cases cp <;> cases rn <;>
        simp [handleTask, renameStep, hcode, hsize] at he <;>
        (subst he; rfl)

theorem handleTask_skip_verification_witness :
    ((handleTask ⟨"u", "d", 0, ⟨-1, "aa", "bb", "cc"⟩⟩
        ⟨.response 200 "body", none, none, .copyOk, ⟨9, "x", "y", "z"⟩, none⟩
        ⟨[], []⟩).sinkWrites = []) ∧
    (handleTask ⟨"u", "d", 0, ⟨-1, "", "", ""⟩⟩
        ⟨.response 200 "body", none, none, .copyOk, ⟨9, "x", "y", "z"⟩, none⟩
        ⟨[], []⟩ =
      handleTask ⟨"u", "d", 0, ⟨-1, "aa", "bb", "cc"⟩⟩
        ⟨.response 200 "body", none, none, .copyOk, ⟨9, "x", "y", "z"⟩, none⟩
        ⟨[], []⟩) :=
  ⟨(handleTask_skip_verification ⟨"u", "d", 0, ⟨-1, "aa", "bb", "cc"⟩⟩
      ⟨.response 200 "body", none, none, .copyOk, ⟨9, "x", "y", "z"⟩, none⟩
      ⟨[], []⟩ rfl).1,
   (handleTask_skip_verification ⟨"u", "d", 0, ⟨-1, "aa", "bb", "cc"⟩⟩
      ⟨.response 200 "body", none, none, .copyOk, ⟨9, "x", "y", "z"⟩, none⟩
      ⟨[], []⟩ rfl).2.2.1 "" "" ""⟩

/-- Looking up a path after a removal: the removed path is gone, every other
path is untouched. -/
theorem lookupFile_removeFile (l : List (String × String)) (p q : String) :
    lookupFile (removeFile l p) q = if p = q then none else lookupFile l q := by
  induction l with
  | nil => simp [removeFile, lookupFile]
  | cons hd tl ih =>
    obtain ⟨a, c⟩ := hd
    by_cases hap : a = p
    · subst hap
      by_cases hpq : a = q
      · subst hpq
        simp [removeFile, ih]
      · simp [removeFile, lookupFile, ih, hpq]
    · by_cases haq : a = q
      · have hpq : p ≠ q := fun h => hap (haq.trans h.symm)
        simp [removeFile, lookupFile, hap, haq, hpq, Ne.symm hpq]
      · simp [removeFile, lookupFile, hap, haq, ih]

/-- Looking up a path after a write: the written path holds the new content,
every other path is untouched. -/
theorem lookupFile_setFile (l : List (String × String)) (p c q : String) :
    lookupFile (setFile l p c) q = if p = q then some c else lookupFile l q := by
  by_cases hpq : p = q <;> simp [setFile, lookupFile, lookupFile_removeFile, hpq]

/-- Creating a directory never touches the files. -/
theorem fsMkdirAll_files (fs : FSState) (d : String) :
    (fsMkdirAll fs d).files = fs.files := by
  unfold fsMkdirAll; split <;> rfl

/-- The destination and its temp-suffixed sibling are distinct paths. -/
theorem destination_ne_temp (d : String) : d ≠ d ++ ".down" := by
  intro h
  have h2 := congrArg String.length h
  simp [String.length_append] at h2
  exact absurd h2 (by decide)

/-- Claim C2: once the temp file destination + ".down" has been created,
every failure path (copy error, verification mismatch, rename failure)
removes it and leaves the destination binding exactly as it was before the
attempt; and on every successful task the destination file exists (holding
the downloaded body) while the temp-suffixed sibling does not. -/
theorem handleTask_temp_cleanup (task : downloadTask) (env : TaskEnv) (fs0 : FSState)
    (code : Int) (body : String)
    (hhttp : env.http = .response code body) (hc : ¬(code < 200 ∨ code > 299))
    (hmk : env.mkdirErr = none) (hcr : env.createErr = none) :
    ((∃ e, (handleTask task env fs0).sent = [some e]) →
      lookupFile (handleTask task env fs0).fs.files (task.destination ++ ".down") = none ∧
      lookupFile (handleTask task env fs0).fs.files task.destination =
        lookupFile fs0.files task.destination) ∧
    ((handleTask task env fs0).sent = [none] →
      lookupFile (handleTask task env fs0).fs.files task.destination = some body ∧
      lookupFile (handleTask task env fs0).fs.files (task.destination ++ ".down") = none) := by
  have hne : task.destination ≠ task.destination ++ ".down" := destination_ne_temp _
  have hne2 : task.destination ++ ".down" ≠ task.destination := fun h => hne h.symm
  rcases hcpv : env.copy with _ | ⟨msg, written⟩
  · by_cases hsz : task.expected.Size = -1
    · rcases hrn : env.renameErr with _ | m
      · constructor
        · rintro ⟨e, he⟩
          simp [handleTask, hhttp, hc, hmk, hcr, hcpv, hsz, renameStep, hrn] at he
        · intro _
          simp [handleTask, hhttp, hc, hmk, hcr, hcpv, hsz, renameStep, hrn,
            fsRename, fsRemove, fsWrite, fsMkdirAll_files, lookupFile_setFile,
            lookupFile_removeFile, hne, hne2]
      · constructor
        · intro _
          simp [handleTask, hhttp, hc, hmk, hcr, hcpv, hsz, renameStep, hrn,
            fsRemove, fsWrite, fsMkdirAll_files, lookupFile_setFile,
            lookupFile_removeFile, hne, hne2]
        · intro hs
          simp [handleTask, hhttp, hc, hmk, hcr, hcpv, hsz, renameStep, hrn] at hs
    · rcases hv : checksumVerdict task.url task.expected env.sum with _ | e2
      · rcases hrn : env.renameErr with _ | m
        · constructor
          · rintro ⟨e, he⟩
            simp [handleTask, hhttp, hc, hmk, hcr, hcpv, hsz, hv, renameStep, hrn] at he
          · intro _
            simp [handleTask, hhttp, hc, hmk, hcr, hcpv, hsz, hv, renameStep, hrn,
              fsRename, fsRemove, fsWrite, fsMkdirAll_files, lookupFile_setFile,
              lookupFile_removeFile, hne, hne2]
        · constructor
          · intro _
            simp [handleTask, hhttp, hc, hmk, hcr, hcpv, hsz, hv, renameStep, hrn,
              fsRemove, fsWrite, fsMkdirAll_files, lookupFile_setFile,
              lookupFile_removeFile, hne, hne2]
          · intro hs
            simp [handleTask, hhttp, hc, hmk, hcr, hcpv, hsz, hv, renameStep, hrn] at hs
      · constructor
        · intro _
          simp [handleTask, hhttp, hc, hmk, hcr, hcpv, hsz, hv,
            fsRemove, fsWrite, fsMkdirAll_files, lookupFile_setFile,
            lookupFile_removeFile, hne, hne2]
        · intro hs
          simp [handleTask, hhttp, hc, hmk, hcr, hcpv, hsz, hv] at hs
  · constructor
    · intro _
      simp [handleTask, hhttp, hc, hmk, hcr, hcpv, fsRemove, fsWrite,
        fsMkdirAll_files, lookupFile_setFile, lookupFile_removeFile, hne, hne2]
    · intro hs
      simp [handleTask, hhttp, hc, hmk, hcr, hcpv] at hs

theorem handleTask_temp_cleanup_witness :
    lookupFile (handleTask ⟨"u", "a/d", 0, ⟨-1, "", "", ""⟩⟩
        ⟨.response 200 "bb", none, none, .copyOk, ⟨0, "", "", ""⟩, some "rfail"⟩
        ⟨[("a/d", "old")], []⟩).fs.files ("a/d" ++ ".down") = none ∧
    lookupFile (handleTask ⟨"u", "a/d", 0, ⟨-1, "", "", ""⟩⟩
        ⟨.response 200 "bb", none, none, .copyOk, ⟨0, "", "", ""⟩, some "rfail"⟩
        ⟨[("a/d", "old")], []⟩).fs.files "a/d" =
      lookupFile [("a/d", "old")] "a/d" :=
  (handleTask_temp_cleanup ⟨"u", "a/d", 0, ⟨-1, "", "", ""⟩⟩
      ⟨.response 200 "bb", none, none, .copyOk, ⟨0, "", "", ""⟩, some "rfail"⟩
      ⟨[("a/d", "old")], []⟩ 200 "bb" rfl (by decide) rfl rfl).1
    ⟨.renameFailed "rfail", by rfl⟩

/-- MkdirAll makes the requested directory exist. -/
theorem fsMkdirAll_dirs_mem (fs : FSState) (d : String) : d ∈ (fsMkdirAll fs d).dirs := by
  unfold fsMkdirAll
  split
  · assumption
  · exact List.mem_cons_self _ _

/-- MkdirAll removes no existing directory. -/
theorem fsMkdirAll_dirs_sub (fs : FSState) (d x : String) (hx : x ∈ fs.dirs) :
    x ∈ (fsMkdirAll fs d).dirs := by
  unfold fsMkdirAll
  split
  · exact hx
  · exact List.mem_cons_of_mem _ hx

/-- Renaming a file never touches the directories. -/
theorem fsRename_dirs (fs : FSState) (s d : String) : (fsRename fs s d).dirs = fs.dirs := by
  unfold fsRename
  split <;> rfl

/-- Once the MkdirAll step has succeeded, every later path of handleTask
(all failures and the success) leaves the directory set exactly as MkdirAll
made it. -/
theorem handleTask_dirs_eq (task : downloadTask) (env : TaskEnv) (fs0 : FSState)
    (code : Int) (body : String)
    (hhttp : env.http = .response code body) (hc : ¬(code < 200 ∨ code > 299))
    (hmk : env.mkdirErr = none) :
    (handleTask task env fs0).fs.dirs = (fsMkdirAll fs0 (dirOf task.destination)).dirs := by
  rcases hcr : env.createErr with _ | cmsg <;>
    rcases hcpv : env.copy with _ | ⟨msg, written⟩ <;>
    by_cases hsz : task.expected.Size = -1 <;>
    rcases hrn : env.renameErr with _ | m <;>
    simp [handleTask, hhttp, hc, hmk, hcr, hcpv, hsz, renameStep, hrn,
      fsRemove, fsWrite, fsRename_dirs] <;>
    rcases hv : checksumVerdict task.url task.expected env.sum with _ | e2 <;>
    simp [hv, fsRename_dirs, fsRemove, fsWrite]

/-- Claim C10: for every task that fails after the parent-directory step
(temp-file creation failure, copy error, verification mismatch, or rename
failure), the directory created by the recursive MkdirAll remains created
and no pre-existing directory disappears; the cleanup touches no file other
than the temp file. -/
theorem handleTask_keeps_directories (task : downloadTask) (env : TaskEnv) (fs0 : FSState)
    (code : Int) (body : String)
    (hhttp : env.http = .response code body) (hc : ¬(code < 200 ∨ code > 299))
    (hmk : env.mkdirErr = none)
    (hfail : ∃ e, (handleTask task env fs0).sent = [some e]) :
    dirOf task.destination ∈ (handleTask task env fs0).fs.dirs ∧
    (∀ d, d ∈ fs0.dirs → d ∈ (handleTask task env fs0).fs.dirs) ∧
    (∀ p, p ≠ task.destination ++ ".down" →
      lookupFile (handleTask task env fs0).fs.files p = lookupFile fs0.files p) := by
  have hdirs := handleTask_dirs_eq task env fs0 code body hhttp hc hmk
  obtain ⟨e, he⟩ := hfail
  refine ⟨?_, ?_, ?_⟩
  · rw [hdirs]
    exact fsMkdirAll_dirs_mem fs0 _
  · intro d hd
    rw [hdirs]
    exact fsMkdirAll_dirs_sub fs0 _ _ hd
  · intro p hp
    have hp2 : task.destination ++ ".down" ≠ p := fun h => hp h.symm
    rcases hcr : env.createErr with _ | cmsg
    · rcases hcpv : env.copy with _ | ⟨msg, written⟩
      · by_cases hsz : task.expected.Size = -1
        · rcases hrn : env.renameErr with _ | m
          · simp [handleTask, hhttp, hc, hmk, hcr, hcpv, hsz, renameStep, hrn] at he
          · simp [handleTask, hhttp, hc, hmk, hcr, hcpv, hsz, renameStep, hrn,
              fsRemove, fsWrite, fsMkdirAll_files, lookupFile_setFile,
              lookupFile_removeFile, hp2]
        · rcases hv : checksumVerdict task.url task.expected env.sum with _ | e2
          · rcases hrn : env.renameErr with _ | m
            · simp [handleTask, hhttp, hc, hmk, hcr, hcpv, hsz, hv, renameStep, hrn] at he
            · simp [handleTask, hhttp, hc, hmk, hcr, hcpv, hsz, hv, renameStep, hrn,
                fsRemove, fsWrite, fsMkdirAll_files, lookupFile_setFile,
                lookupFile_removeFile, hp2]
          · simp [handleTask, hhttp, hc, hmk, hcr, hcpv, hsz, hv,
              fsRemove, fsWrite, fsMkdirAll_files, lookupFile_setFile,
              lookupFile_removeFile, hp2]
      · simp [handleTask, hhttp, hc, hmk, hcr, hcpv, fsRemove, fsWrite,
          fsMkdirAll_files, lookupFile_setFile, lookupFile_removeFile, hp2]
    · simp [handleTask, hhttp, hc, hmk, hcr, fsMkdirAll_files]

theorem handleTask_keeps_directories_witness :
    dirOf "a/d" ∈ (handleTask ⟨"u", "a/d", 0, ⟨-1, "", "", ""⟩⟩
        ⟨.response 200 "bb", none, some "cf", .copyOk, ⟨0, "", "", ""⟩, none⟩
        ⟨[("q", "old")], ["x"]⟩).fs.dirs ∧
    lookupFile (handleTask ⟨"u", "a/d", 0, ⟨-1, "", "", ""⟩⟩
        ⟨.response 200 "bb", none, some "cf", .copyOk, ⟨0, "", "", ""⟩, none⟩
        ⟨[("q", "old")], ["x"]⟩).fs.files "q" = lookupFile [("q", "old")] "q" :=
  ⟨(handleTask_keeps_directories ⟨"u", "a/d", 0, ⟨-1, "", "", ""⟩⟩
      ⟨.response 200 "bb", none, some "cf", .copyOk, ⟨0, "", "", ""⟩, none⟩
      ⟨[("q", "old")], ["x"]⟩ 200 "bb" rfl (by decide) rfl
      ⟨.createFailed "cf", by rfl⟩).1,
   (handleTask_keeps_directories ⟨"u", "a/d", 0, ⟨-1, "", "", ""⟩⟩
      ⟨.response 200 "bb", none, some "cf", .copyOk, ⟨0, "", "", ""⟩, none⟩
      ⟨[("q", "old")], ["x"]⟩ 200 "bb" rfl (by decide) rfl
      ⟨.createFailed "cf", by rfl⟩).2.2 "q" (by decide)⟩

/-- Claim C8: DownloadTemp submits exactly one task, targeting the fixed
filename "buffer" inside the fresh temporary directory, and blocks for that
task's single result; it propagates a download failure, returns a readable
handle to the fetched content on success, and on every path after the
directory's creation (success, download failure, open failure) the
temporary directory is removed before returning. -/
theorem DownloadTemp_spec (env : TempEnv) (url : String) (hdir : env.tempDirErr = none) :
    (DownloadTemp env url).submitted = [(url, env.tempdir ++ "/buffer")] ∧
    (DownloadTemp env url).tempdirRemoved = true ∧
    (∀ e, env.fetchErr = some e → (DownloadTemp env url).result = .error (.download e)) ∧
    (env.fetchErr = none → ∀ msg, env.openErr = some msg →
      (DownloadTemp env url).result = .error (.openFailed msg)) ∧
    (env.fetchErr = none → env.openErr = none →
      (DownloadTemp env url).result = .ok env.content) := by
  obtain ⟨de, td, fe, ct, oe⟩ := env
  cases hdir
  cases fe <;> cases oe <;> simp [DownloadTemp]

theorem DownloadTemp_spec_witness :
    (DownloadTemp ⟨none, "t", none, "data", none⟩ "u").submitted =
      [("u", "t" ++ "/buffer")] ∧
    (DownloadTemp ⟨none, "t", none, "data", none⟩ "u").tempdirRemoved = true ∧
    (DownloadTemp ⟨none, "t", none, "data", none⟩ "u").result = .ok "data" :=
  ⟨(DownloadTemp_spec ⟨none, "t", none, "data", none⟩ "u" rfl).1,
   (DownloadTemp_spec ⟨none, "t", none, "data", none⟩ "u" rfl).2.1,
   (DownloadTemp_spec ⟨none, "t", none, "data", none⟩ "u" rfl).2.2.2.2 rfl rfl⟩

/-- Claim C7: DownloadTryCompression probes url+".bz2" (bzip2 decode),
url+".gz" (gzip decode), then the bare url (pass-through), in that fixed
order; the first candidate whose download and decoder construction both
succeed is returned immediately with its decoded stream, and when every
candidate fails the returned error is the last error encountered — for
all-download-failures, the raw (no-suffix) candidate's error. -/
theorem DownloadTryCompression_order (tenv : String → TempEnv)
    (gzipErr : String → Option String) (url : String) :
    (∀ c, tempFetch tenv (url ++ ".bz2") = .ok c →
      DownloadTryCompression tenv gzipErr url = .ok (.bzip2Reader c, c)) ∧
    (∀ e1 c, tempFetch tenv (url ++ ".bz2") = .error e1 →
      tempFetch tenv (url ++ ".gz") = .ok c → gzipErr c = none →
      DownloadTryCompression tenv gzipErr url = .ok (.gzipReader c, c)) ∧
    (∀ e1 c g c2, tempFetch tenv (url ++ ".bz2") = .error e1 →
      tempFetch tenv (url ++ ".gz") = .ok c → gzipErr c = some g →
      tempFetch tenv (url ++ "") = .ok c2 →
      DownloadTryCompression tenv gzipErr url = .ok (.rawReader c2, c2)) ∧
    (∀ e1 c g e3, tempFetch tenv (url ++ ".bz2") = .error e1 →
      tempFetch tenv (url ++ ".gz") = .ok c → gzipErr c = some g →
      tempFetch tenv (url ++ "") = .error e3 →
      DownloadTryCompression tenv gzipErr url = .error (some (.download e3))) ∧
    (∀ e1 e2 c2, tempFetch tenv (url ++ ".bz2") = .error e1 →
      tempFetch tenv (url ++ ".gz") = .error e2 →
      tempFetch tenv (url ++ "") = .ok c2 →
      DownloadTryCompression tenv gzipErr url = .ok (.rawReader c2, c2)) ∧
    (∀ e1 e2 e3, tempFetch tenv (url ++ ".bz2") = .error e1 →
      tempFetch tenv (url ++ ".gz") = .error e2 →
      tempFetch tenv (url ++ "") = .error e3 →
      DownloadTryCompression tenv gzipErr url = .error (some (.download e3))) := by
  refine ⟨?_, ?_, ?_, ?_, ?_, ?_⟩
  · intro c h1
    simp [DownloadTryCompression, compressionMethods, tryMethods, h1]
  · intro e1 c h1 h2 hg
    simp [DownloadTryCompression, compressionMethods, tryMethods, h1, h2, hg]
  · intro e1 c g c2 h1 h2 hg h3
    simp only [String.append_empty] at h3
    simp [DownloadTryCompression, compressionMethods, tryMethods, h1, h2, hg, h3]
  · intro e1 c g e3 h1 h2 hg h3
    simp only [String.append_empty] at h3
    simp [DownloadTryCompression, compressionMethods, tryMethods, h1, h2, hg, h3]
  · intro e1 e2 c2 h1 h2 h3
    simp only [String.append_empty] at h3
    simp [DownloadTryCompression, compressionMethods, tryMethods, h1, h2, h3]
  · intro e1 e2 e3 h1 h2 h3
    simp only [String.append_empty] at h3
    simp [DownloadTryCompression, compressionMethods, tryMethods, h1, h2, h3]

theorem DownloadTryCompression_order_witness :
    DownloadTryCompression
      (fun u => if u = "u.bz2" then ⟨none, "t", some (.transport "nope"), "", none⟩
        else if u = "u.gz" then ⟨none, "t", none, "gzdata", none⟩
        else ⟨none, "t", none, "raw", none⟩)
      (fun _ => none) "u" = .ok (.gzipReader "gzdata", "gzdata") :=
  (DownloadTryCompression_order
      (fun u => if u = "u.bz2" then ⟨none, "t", some (.transport "nope"), "", none⟩
        else if u = "u.gz" then ⟨none, "t", none, "gzdata", none⟩
        else ⟨none, "t", none, "raw", none⟩)
      (fun _ => none) "u").2.1 (.download (.transport "nope")) "gzdata"
    (by rfl) (by rfl) rfl

/-- A worker terminates at its first stop token, so it consumes at most one
stop token in its whole life. -/
theorem countStops_consumedEvents_le_one (evs : List WorkerEvent) :
    countStops (consumedEvents evs) ≤ 1 := by
  induction evs with
  | nil => simp [consumedEvents, countStops]
  | cons e rest ih => cases e <;> simp [consumedEvents, countStops, ih]

/-- A worker consumes exactly one stop token precisely when a stop token is
ever dispatched to it. -/
theorem consumed_stop_iff (evs : List WorkerEvent) :
    countStops (consumedEvents evs) = 1 ↔ WorkerEvent.stopTok ∈ evs := by
  induction evs with
  | nil => simp [consumedEvents, countStops]
  | cons e rest ih => cases e <;> simp [consumedEvents, countStops, ih]

/-- A worker acknowledges stop exactly as often as it consumes a stop token. -/
theorem countAcks_process (evs : List WorkerEvent) :
    countAcks (process evs) = countStops (consumedEvents evs) := by
  induction evs with
  | nil => rfl
  | cons e rest ih => cases e <;> simp [process, consumedEvents, countStops, countAcks, ih]

/-- Trace of a worker that receives a stop token: every task dispatched
before the stop runs to completion, in order, with its result delivered
before the acknowledgment, which is the final action; arrivals after the
stop are never consumed. -/
theorem process_trace (evs : List WorkerEvent) (h : WorkerEvent.stopTok ∈ evs) :
    process evs = (tasksOf (beforeStop evs)).map .completed ++ [.acked] ∧
    consumedEvents evs = beforeStop evs ++ [.stopTok] := by
  induction evs with
  | nil => cases h
  | cons e rest ih =>
    cases e with
    | stopTok => simp [process, beforeStop, tasksOf, consumedEvents]
    | pauseTok =>
      have h2 : WorkerEvent.stopTok ∈ rest := by simpa using h
      obtain ⟨ha, hb⟩ := ih h2
      simp [process, beforeStop, tasksOf, consumedEvents, ha, hb]
    | taskEv t =>
      have h2 : WorkerEvent.stopTok ∈ rest := by simpa using h
      obtain ⟨ha, hb⟩ := ih h2
      simp [process, beforeStop, tasksOf, consumedEvents, ha, hb]

/-- Sum of naturals each at most one is at most the count. -/
theorem sum_le_length_of_le_one (l : List Nat) (h : ∀ x ∈ l, x ≤ 1) :
    l.sum ≤ l.length := by
  induction l with
  | nil => simp
  | cons a t ih =>
    have ht := ih (fun y hy => h y (List.mem_cons_of_mem _ hy))
    have ha := h a (List.mem_cons_self _ _)
    simp only [List.sum_cons, List.length_cons]
    omega

/-- Pigeonhole for the stop tokens: naturals each at most one summing to the
count are each exactly one. -/
theorem each_eq_one_of_sum (l : List Nat) (hle : ∀ x ∈ l, x ≤ 1)
    (hsum : l.sum = l.length) : ∀ x ∈ l, x = 1 := by
  induction l with
  | nil => simp
  | cons a t ih =>
    intro x hx
    have ha : a ≤ 1 := hle a (List.mem_cons_self _ _)
    have hts : t.sum ≤ t.length :=
      sum_le_length_of_le_one t (fun y hy => hle y (List.mem_cons_of_mem _ hy))
    have hsum2 : a + t.sum = t.length + 1 := by
      simpa [List.sum_cons, List.length_cons] using hsum
    have htsum : t.sum = t.length := by omega
    rcases List.mem_cons.mp hx with hx | hx
    · omega
    · exact ih (fun y hy => hle y (List.mem_cons_of_mem _ hy)) htsum x hx

/-- Claim C9: for an N-worker engine in which each worker consumes its
select arrivals in order and all N stop tokens sent by Shutdown are
consumed, every worker consumes exactly one stop token and acknowledges
exactly once, so the N acknowledgments Shutdown waits for all arrive; each
worker's trace completes every task dispatched before its stop token and
delivers those results before the acknowledgment, which is its last action;
and arrivals after the stop token — tasks still sitting in the queue — are
never consumed and never cancelled mid-flight. -/
theorem Shutdown_protocol (threads : Nat) (schedules : List (List WorkerEvent))
    (hlen : schedules.length = threads)
    (hall : (schedules.map (fun evs => countStops (consumedEvents evs))).sum =
      shutdownStopsSent threads) :
    (∀ evs ∈ schedules, countStops (consumedEvents evs) = 1) ∧
    ((schedules.map (fun evs => countAcks (process evs))).sum =
      shutdownAcksAwaited threads) ∧
    (∀ evs ∈ schedules,
      process evs = (tasksOf (beforeStop evs)).map .completed ++ [.acked] ∧
      consumedEvents evs = beforeStop evs ++ [.stopTok]) := by
  have hle : ∀ x ∈ schedules.map (fun evs => countStops (consumedEvents evs)), x ≤ 1 := by
    intro x hx
    obtain ⟨evs, _, rfl⟩ := List.mem_map.mp hx
    exact countStops_consumedEvents_le_one evs
  have hsum : (schedules.map (fun evs => countStops (consumedEvents evs))).sum =
      (schedules.map (fun evs => countStops (consumedEvents evs))).length := by
    rw [List.length_map, hlen]
    exact hall
  have hone : ∀ evs ∈ schedules, countStops (consumedEvents evs) = 1 := by
    intro evs hevs
    exact each_eq_one_of_sum _ hle hsum _ (List.mem_map_of_mem _ hevs)
  refine ⟨hone, ?_, ?_⟩
  · have hmap : schedules.map (fun evs => countAcks (process evs)) =
        schedules.map (fun evs => countStops (consumedEvents evs)) := by
      simp only [countAcks_process]
    rw [hmap, hall]
    rfl
  · intro evs hevs
    exact process_trace evs ((consumed_stop_iff evs).mp (hone evs hevs))

theorem Shutdown_protocol_witness :
    ((([[.taskEv ⟨"u", "d", 0, ⟨-1, "", "", ""⟩⟩, .stopTok],
        [.stopTok]] : List (List WorkerEvent)).map
      (fun evs => countAcks (process evs))).sum = shutdownAcksAwaited 2) ∧
    process [.taskEv ⟨"u", "d", 0, ⟨-1, "", "", ""⟩⟩, .stopTok] =
      [.completed ⟨"u", "d", 0, ⟨-1, "", "", ""⟩⟩, .acked] :=
  ⟨(Shutdown_protocol 2
      [[.taskEv ⟨"u", "d", 0, ⟨-1, "", "", ""⟩⟩, .stopTok], [.stopTok]]
      rfl rfl).2.1,
   ((Shutdown_protocol 2
      [[.taskEv ⟨"u", "d", 0, ⟨-1, "", "", ""⟩⟩, .stopTok], [.stopTok]]
      rfl rfl).2.2 [.taskEv ⟨"u", "d", 0, ⟨-1, "", "", ""⟩⟩, .stopTok]
      (List.mem_cons_self _ _)).1⟩
